import Mathlib

/-!
Shallow embedding of the chat client module in `static/app.js`.

The module keeps global mutable state: the WebSocket handle `ws`, the
pending-echo registry `pendingByClientId` (a Map from client id to the DOM
element of the optimistic placeholder), the outbound `sendQueue`, and the
reconnect timer handle `reconnectTimer`.  The DOM container `messagesEl`
holds the rendered message elements.

DOM elements are reference values shared between `messagesEl` and the
pending registry, so we model a heap: `elems` is the list of all message
elements ever created (the index into this list is the element's identity),
`children` is the ordered list of element ids currently attached to
`messagesEl`, and the registry maps client ids to element ids.  Clearing
the display (`messagesEl.innerHTML = ""`) empties `children` but the
element objects survive while the registry still references them, exactly
as in the browser.

Environment effects are made explicit:
* `ws.send` may throw; a send oracle `Nat → Bool` gives the outcome of the
  k-th send attempt (`s.sendCount` counts attempts).
* `setTimeout` is instrumented by `pendingTimers`, the list of delays of
  the live timers, next to the `reconnectTimer` flag variable itself.
* `console.*` output is collected in `log`.
* The browser updates `ws.readyState` before firing `onopen`/`onclose`.
-/

namespace ChatClient

/-- A message as carried by inbound frames.  Fields that are absent or
falsy in JS (`client_id`, `image_url`, `text`) are modelled as `""`. -/
structure Msg where
  username : String
  text : String
  image_url : String
  created_at : Nat
  client_id : String
deriving Repr, DecidableEq

/-- Outbound frame `{ text, image_url, client_id }` (line 186). -/
structure Payload where
  text : String
  image_url : String
  client_id : String
deriving Repr, DecidableEq

/-- A rendered message element: the `.meta` line text, the body text, the
optional `img` src, and the `pending` / `me` classes. -/
structure MsgEl where
  meta : String
  body : String
  image : Option String
  pending : Bool
  isMe : Bool
deriving Repr, DecidableEq

/-- Placeholder element value used as the `getD` default; never the result
of an in-range lookup. -/
def emptyEl : MsgEl := { meta := "", body := "", image := none, pending := false, isMe := false }

/-- The WebSocket object: only its `readyState` matters to the module
(0 = CONNECTING, 1 = OPEN, 2 = CLOSING, 3 = CLOSED). -/
structure WS where
  readyState : Nat
deriving Repr, DecidableEq

/-- The module's global mutable state plus environment instrumentation
(`sentFrames`, `sendCount`, `attempts`, `pendingTimers`, `log`). -/
structure ClientState where
  username : String
  ws : Option WS
  pendingByClientId : List (String × Nat)
  sendQueue : List Payload
  reconnectTimer : Bool
  elems : List MsgEl
  children : List Nat
  sentFrames : List Payload
  sendCount : Nat
  attempts : Nat
  pendingTimers : List Nat
  log : List String
deriving Repr, DecidableEq

/-- The ordered list of message elements currently shown in `messagesEl`. -/
def displayed (s : ClientState) : List MsgEl :=
  s.children.map (fun i => s.elems.getD i emptyEl)

/-- `Map.delete`: removes the entry with the given key (JS Map keys are
unique, so removing the first occurrence is exact). -/
def eraseKey (k : String) : List (String × Nat) → List (String × Nat)
  | [] => []
  | kv :: rest => if kv.1 = k then rest else kv :: eraseKey k rest

/-- `Map.set`: overwrites an existing entry or appends a new one. -/
def mapSet (l : List (String × Nat)) (k : String) (v : Nat) : List (String × Nat) :=
  if (l.lookup k).isSome then
    l.map (fun kv => if kv.1 = k then (k, v) else kv)
  else
    l ++ [(k, v)]

/-- Update the element at heap index `i` in place. -/
def listModify (f : MsgEl → MsgEl) : Nat → List MsgEl → List MsgEl
  | _, [] => []
  | 0, x :: xs => f x :: xs
  | n + 1, x :: xs => x :: listModify f n xs

/-- Stand-in for `new Date(t * 1000).toLocaleTimeString()`: the locale
formatting is environment-dependent; all that matters to the module is
that it is a function of the timestamp alone. -/
def localeTime (t : Nat) : String := toString t

/-- The `.meta` line written for a confirmed or inbound message (lines 49
and 59): username and formatted timestamp. -/
def metaText (m : Msg) : String := m.username ++ " · " ++ localeTime m.created_at

/-- Lines 44: the guard `msg.client_id && pendingByClientId.has(msg.client_id)`
followed by `get`; `""` models a falsy `client_id`. -/
def pendingLookup (s : ClientState) (cid : String) : Option Nat :=
  if cid = "" then none else s.pendingByClientId.lookup cid

/-- Lines 47-51: rewrite the matched placeholder's meta line and drop its
`pending` class; body and image are untouched. -/
def updateConfirmed (m : Msg) (el : MsgEl) : MsgEl :=
  { el with meta := metaText m, pending := false }

/-- Lines 45-52: consume the registry entry and update the element it
references in place; nothing is appended to the display. -/
def resolvePending (m : Msg) (elId : Nat) (s : ClientState) : ClientState :=
  { s with pendingByClientId := eraseKey m.client_id s.pendingByClientId,
           elems := listModify (updateConfirmed m) elId s.elems }

/-- Lines 55-68: the element built for an unmatched inbound message. -/
def renderMsg (selfName : String) (m : Msg) : MsgEl :=
  { meta := metaText m
    body := m.text
    image := if m.image_url = "" then none else some m.image_url
    pending := false
    isMe := m.username = selfName }

/-- Lines 55-70: create a fresh element and append it to `messagesEl`. -/
def appendFresh (m : Msg) (s : ClientState) : ClientState :=
  { s with elems := s.elems ++ [renderMsg s.username m],
           children := s.children ++ [s.elems.length] }

/-- `addMessage` (lines 42-71): suppress the `"system"` sentinel, else
resolve a matching pending placeholder, else render fresh. -/
def addMessage (m : Msg) (s : ClientState) : ClientState :=
  if m.username = "system" then s
  else
    match pendingLookup s m.client_id with
    | some elId => resolvePending m elId s
    | none => appendFresh m s

/-- The browser sets `ws.readyState` before delivering open/close events. -/
def setReady (n : Nat) (s : ClientState) : ClientState :=
  { s with ws := s.ws.map (fun w => { w with readyState := n }) }

/-- True when `ws && ws.readyState === 1`. -/
def isOpen (s : ClientState) : Bool :=
  match s.ws with
  | none => false
  | some w => w.readyState == 1

/-- Construction `ws = new WebSocket(wsUrl())` (line 104): a fresh socket
in CONNECTING state; `attempts` counts constructions. -/
def newSocket (s : ClientState) : ClientState :=
  { s with ws := some { readyState := 0 }, attempts := s.attempts + 1 }

/-- `connectWS` entry guard (lines 102-104): a no-op while the current
socket is CONNECTING (0) or OPEN (1), else a fresh connection attempt. -/
def connectWS (s : ClientState) : ClientState :=
  match s.ws with
  | some w => if w.readyState = 0 ∨ w.readyState = 1 then s else newSocket s
  | none => newSocket s

/-- `scheduleReconnect` (lines 131-137): guarded by the timer flag; a new
`setTimeout(..., 800)` adds one live timer with delay 800. -/
def scheduleReconnect (s : ClientState) : ClientState :=
  if s.reconnectTimer then s
  else { s with reconnectTimer := true, pendingTimers := s.pendingTimers ++ [800] }

/-- The reconnect timer fires (lines 133-136): clear the flag, consume the
timer, call `connectWS`. -/
def fireReconnect (s : ClientState) : ClientState :=
  connectWS { s with reconnectTimer := false, pendingTimers := s.pendingTimers.tail }

/-- The `while` loop of `flushQueue` (lines 141-149): `shift` removes the
head, then `ws.send` either succeeds (the frame goes on the wire) or
throws, which logs and breaks — the shifted item is not put back. -/
def flushLoop (oracle : Nat → Bool) : ClientState → List Payload → ClientState
  | s, [] => { s with sendQueue := [] }
  | s, p :: rest =>
    if oracle s.sendCount then
      flushLoop oracle
        { s with sendQueue := rest, sentFrames := s.sentFrames ++ [p],
                 sendCount := s.sendCount + 1 } rest
    else
      { s with sendQueue := rest, sendCount := s.sendCount + 1,
               log := s.log ++ ["[SEND] queued send failed"] }

/-- `flushQueue` (lines 139-150): returns immediately unless the socket
exists and is OPEN. -/
def flushQueue (oracle : Nat → Bool) (s : ClientState) : ClientState :=
  if isOpen s then flushLoop oracle s s.sendQueue else s

/-- `sendQueue.push(payload)` (line 190). -/
def enqueue (p : Payload) (s : ClientState) : ClientState :=
  { s with sendQueue := s.sendQueue ++ [p] }

/-- `ws.onopen` (lines 105-108): readyState became 1, log, flush. -/
def handleOpen (oracle : Nat → Bool) (s : ClientState) : ClientState :=
  flushQueue oracle { (setReady 1 s) with log := s.log ++ ["[WS] connected"] }

/-- `ws.onclose` (lines 109-112): readyState became 3, log, schedule the
reconnect. -/
def handleClose (s : ClientState) : ClientState :=
  scheduleReconnect { (setReady 3 s) with log := s.log ++ ["[WS] closed"] }

/-- `ws.onerror` (lines 113-115): log only; the handler neither throws nor
touches any module state. -/
def handleError (s : ClientState) : ClientState :=
  { s with log := s.log ++ ["[WS] error"] }

/-- A recognized, well-shaped inbound payload after `JSON.parse`:
`history`, `message`, or a frame whose `type` is neither. -/
inductive Frame
  | history (messages : List Msg)
  | message (msg : Msg)
  | other (ty : String)
deriving Repr, DecidableEq

/-- The raw inbound event data: either `JSON.parse` throws, or it yields a
payload. -/
inductive RawFrame
  | malformed
  | ok (f : Frame)
deriving Repr, DecidableEq

/-- The `history` branch (lines 119-121): `messagesEl.innerHTML = ""`
empties the child list (the registry is untouched), then every message of
the payload runs through `addMessage`. -/
def handleHistory (ms : List Msg) (s : ClientState) : ClientState :=
  ms.foldl (fun st m => addMessage m st) { s with children := [] }

/-- `ws.onmessage` (lines 116-128): parse inside try/catch, dispatch on
`payload.type`; a parse failure only logs, an unrecognized type matches
neither branch. -/
def onMessage (raw : RawFrame) (s : ClientState) : ClientState :=
  match raw with
  | RawFrame.malformed => { s with log := s.log ++ ["[WS] bad JSON"] }
  | RawFrame.ok (Frame.history ms) => handleHistory ms s
  | RawFrame.ok (Frame.message m) => addMessage m s
  | RawFrame.ok (Frame.other _) => s

/-- The optimistic placeholder built in `sendMessage` (lines 168-181):
classes `message me pending`, meta `"<user> · sending..."`. -/
def mkPendingEl (selfName text image_url : String) : MsgEl :=
  { meta := selfName ++ " · sending..."
    body := text
    image := if image_url = "" then none else some image_url
    pending := true
    isMe := true }

/-- The core of `sendMessage` (lines 165-193), after the upload pre-step:
bail on an empty draft, render and register the placeholder, then either
send directly (OPEN) or enqueue and ensure a connection attempt. -/
def sendMessageCore (oracle : Nat → Bool) (text image_url clientId : String)
    (s : ClientState) : ClientState :=
  if text = "" ∧ image_url = "" then s
  else
    let elId := s.elems.length
    let s1 : ClientState :=
      { s with elems := s.elems ++ [mkPendingEl s.username text image_url],
               children := s.children ++ [elId],
               pendingByClientId := mapSet s.pendingByClientId clientId elId }
    let p : Payload := { text := text, image_url := image_url, client_id := clientId }
    if isOpen s1 then
      if oracle s1.sendCount then
        { s1 with sentFrames := s1.sentFrames ++ [p], sendCount := s1.sendCount + 1 }
      else
        { s1 with sendCount := s1.sendCount + 1 }
    else
      connectWS (enqueue p s1)

/-- Coupling between the `reconnectTimer` flag and the live timers the
environment holds: the flag is set exactly while one 800 ms timer is
pending. -/
def timerInv (s : ClientState) : Prop :=
  s.pendingTimers = if s.reconnectTimer then [800] else []

/-- True when the connection is in the spec's Disconnected state: no
socket, or a socket that is neither CONNECTING nor OPEN. -/
def isDisconnected (s : ClientState) : Bool :=
  match s.ws with
  | none => true
  | some w => !(w.readyState == 0) && !(w.readyState == 1)

/-- Spec-side rendering of a history sequence, following the spec's words
for comparison with the code: sentinel-filtered, rendered fresh, with no
pending-id matching. -/
def histRenderSpec (selfName : String) (ms : List Msg) : List MsgEl :=
  (ms.filter (fun m => m.username ≠ "system")).map (renderMsg selfName)

/-! Concrete states and inputs used by the witnesses and counterexamples. -/

/-- A freshly connected session for user `"bob"`: open socket, everything
else empty. -/
def sInit : ClientState :=
  { username := "bob", ws := some { readyState := 1 }, pendingByClientId := []
    sendQueue := [], reconnectTimer := false, elems := [], children := []
    sentFrames := [], sendCount := 0, attempts := 0, pendingTimers := [], log := [] }

/-- Concrete outbound payloads. -/
def pA : Payload := { text := "a", image_url := "", client_id := "ca" }

def pB : Payload := { text := "b", image_url := "", client_id := "cb" }

/-- A session holding one optimistic placeholder registered under client
id `"abc"` and displayed. -/
def sPend : ClientState :=
  { username := "bob", ws := some { readyState := 1 }
    pendingByClientId := [("abc", 0)], sendQueue := [], reconnectTimer := false
    elems := [mkPendingEl "bob" "hi" ""], children := [0]
    sentFrames := [], sendCount := 0, attempts := 0, pendingTimers := [], log := [] }

/-- The server echo of the placeholder registered in `sPend`. -/
def mBob : Msg :=
  { username := "bob", text := "hi", image_url := "", created_at := 1000, client_id := "abc" }

/-- An inbound message from another user, with no client id. -/
def mAlice : Msg :=
  { username := "alice", text := "yo", image_url := "", created_at := 1001, client_id := "" }

/-- A sentinel message. -/
def mSys : Msg :=
  { username := "system", text := "motd", image_url := "", created_at := 7, client_id := "abc" }

/-- The state after `sendMessageCore` sends `"hi"` as `"abc"` from `sInit`. -/
def s1W : ClientState := sendMessageCore (fun _ => true) "hi" "" "abc" sInit

/-! Association-list and heap helper lemmas. -/

theorem lookup_eq_none_of_not_mem (k : String) (l : List (String × Nat))
    (h : k ∉ l.map Prod.fst) : l.lookup k = none := by
  induction l with
  | nil => rfl
  | cons kv rest ih =>
    simp only [List.map_cons, List.mem_cons] at h
    push_neg at h
    have hb : (k == kv.1) = false := beq_eq_false_iff_ne.mpr h.1
    simp only [List.lookup, hb]
    exact ih h.2

theorem eraseKey_length (k : String) (l : List (String × Nat))
    (h : (l.lookup k).isSome) : (eraseKey k l).length + 1 = l.length := by
  induction l with
  | nil => simp [List.lookup] at h
  | cons kv rest ih =>
    by_cases hk : kv.1 = k
    · simp [eraseKey, hk]
    · have hb : (k == kv.1) = false := beq_eq_false_iff_ne.mpr (fun hh => hk hh.symm)
      simp only [List.lookup, hb] at h
      simp [eraseKey, hk, ih h]

theorem lookup_eraseKey_self (k : String) (l : List (String × Nat))
    (hnodup : (l.map Prod.fst).Nodup) : (eraseKey k l).lookup k = none := by
  induction l with
  | nil => rfl
  | cons kv rest ih =>
    simp only [List.map_cons, List.nodup_cons] at hnodup
    by_cases hk : kv.1 = k
    · rw [eraseKey, if_pos hk]
      exact lookup_eq_none_of_not_mem k rest (hk ▸ hnodup.1)
    · rw [eraseKey, if_neg hk]
      have hb : (k == kv.1) = false := beq_eq_false_iff_ne.mpr (fun hh => hk hh.symm)
      simp only [List.lookup, hb]
      exact ih hnodup.2

theorem lookup_eraseKey_ne (k k' : String) (l : List (String × Nat))
    (h : k' ≠ k) : (eraseKey k l).lookup k' = l.lookup k' := by
  induction l with
  | nil => rfl
  | cons kv rest ih =>
    by_cases hk : kv.1 = k
    · rw [eraseKey, if_pos hk]
      have hb : (k' == kv.1) = false :=
        beq_eq_false_iff_ne.mpr (fun hh => h (hh.trans hk))
      simp [List.lookup, hb]
    · rw [eraseKey, if_neg hk]
      by_cases he : k' = kv.1
      · have hb : (k' == kv.1) = true := beq_iff_eq.mpr he
        simp [List.lookup, hb]
      · have hb : (k' == kv.1) = false := beq_eq_false_iff_ne.mpr he
        simp [List.lookup, hb, ih]

theorem listModify_length (f : MsgEl → MsgEl) (i : Nat) (l : List MsgEl) :
    (listModify f i l).length = l.length := by
  induction l generalizing i with
  | nil => cases i <;> rfl
  | cons x xs ih =>
    cases i with
    | zero => rfl
    | succ n => simp [listModify, ih]

theorem getD_listModify_self (f : MsgEl → MsgEl) (i : Nat) (l : List MsgEl)
    (h : i < l.length) (d : MsgEl) :
    (listModify f i l).getD i d = f (l.getD i d) := by
  induction l generalizing i with
  | nil => simp at h
  | cons x xs ih =>
    cases i with
    | zero => rfl
    | succ n =>
      simp only [List.length_cons, Nat.succ_lt_succ_iff] at h
      simpa [listModify] using ih n h

/-! Flush-loop lemmas. -/

theorem flushLoop_ok (oracle : Nat → Bool) (q : List Payload) :
    ∀ s : ClientState, (∀ i, i < q.length → oracle (s.sendCount + i) = true) →
      (flushLoop oracle s q).sentFrames = s.sentFrames ++ q ∧
      (flushLoop oracle s q).sendQueue = [] := by
  induction q with
  | nil => intro s _; exact ⟨by simp [flushLoop], rfl⟩
  | cons p rest ih =>
    intro s h
    have h0 : oracle s.sendCount = true := by simpa using h 0 (Nat.succ_pos _)
    have hstep : flushLoop oracle s (p :: rest) =
        flushLoop oracle
          { s with sendQueue := rest, sentFrames := s.sentFrames ++ [p],
                   sendCount := s.sendCount + 1 } rest := by
      simp [flushLoop, h0]
    have hsh : ∀ i, i < rest.length →
        oracle (({ s with sendQueue := rest, sentFrames := s.sentFrames ++ [p],
                          sendCount := s.sendCount + 1 } : ClientState).sendCount + i)
          = true := by
      intro i hi
      have heq : s.sendCount + 1 + i = s.sendCount + (i + 1) := by omega
      have := h (i + 1) (by simpa using Nat.succ_lt_succ hi)
      simpa [heq] using this
    obtain ⟨h1, h2⟩ := ih _ hsh
    refine ⟨?_, hstep ▸ h2⟩
    rw [hstep, h1]
    simp

theorem flushLoop_fail (oracle : Nat → Bool) :
    ∀ (k : Nat) (q : List Payload) (s : ClientState), k < q.length →
      (∀ i, i < k → oracle (s.sendCount + i) = true) →
      oracle (s.sendCount + k) = false →
      (flushLoop oracle s q).sentFrames = s.sentFrames ++ q.take k ∧
      (flushLoop oracle s q).sendQueue = q.drop (k + 1) := by
  intro k
  induction k with
  | zero =>
    intro q s hk _ hfail
    cases q with
    | nil => simp at hk
    | cons p rest =>
      have h0 : oracle s.sendCount = false := by simpa using hfail
      refine ⟨?_, ?_⟩ <;> simp [flushLoop, h0]
  | succ k ih =>
    intro q s hk hpre hfail
    cases q with
    | nil => simp at hk
    | cons p rest =>
      have h0 : oracle s.sendCount = true := by simpa using hpre 0 (Nat.succ_pos _)
      have hstep : flushLoop oracle s (p :: rest) =
          flushLoop oracle
            { s with sendQueue := rest, sentFrames := s.sentFrames ++ [p],
                     sendCount := s.sendCount + 1 } rest := by
        simp [flushLoop, h0]
      have hk' : k < rest.length := by simpa using Nat.lt_of_succ_lt_succ hk
      have hpre' : ∀ i, i < k →
          oracle (({ s with sendQueue := rest, sentFrames := s.sentFrames ++ [p],
                            sendCount := s.sendCount + 1 } : ClientState).sendCount + i)
            = true := by
        intro i hi
        have heq : s.sendCount + 1 + i = s.sendCount + (i + 1) := by omega
        have := hpre (i + 1) (Nat.succ_lt_succ hi)
        simpa [heq] using this
      have hfail' :
          oracle (({ s with sendQueue := rest, sentFrames := s.sentFrames ++ [p],
                            sendCount := s.sendCount + 1 } : ClientState).sendCount + k)
            = false := by
        have heq : s.sendCount + 1 + k = s.sendCount + (k + 1) := by omega
        simpa [heq] using hfail
      obtain ⟨h1, h2⟩ := ih rest _ hk' hpre' hfail'
      refine ⟨?_, ?_⟩
      · rw [hstep, h1]; simp
      · rw [hstep, h2]; simp

/-- A sequence of `enqueue` operations appends its payloads in order. -/
theorem foldl_enqueue (ps : List Payload) :
    ∀ s : ClientState, List.foldl (fun st p => enqueue p st) s ps =
      { s with sendQueue := s.sendQueue ++ ps } := by
  induction ps with
  | nil => intro s; simp
  | cons p rest ih =>
    intro s
    rw [List.foldl_cons, ih (enqueue p s)]
    simp [enqueue]

/-! History-replay lemmas. -/

theorem displayed_appendFresh (m : Msg) (s : ClientState)
    (hvalid : ∀ i ∈ s.children, i < s.elems.length) :
    displayed (appendFresh m s) = displayed s ++ [renderMsg s.username m] := by
  show (s.children ++ [s.elems.length]).map
      (fun i => (s.elems ++ [renderMsg s.username m]).getD i emptyEl)
    = s.children.map (fun i => s.elems.getD i emptyEl) ++ [renderMsg s.username m]
  rw [List.map_append]
  congr 1
  · exact List.map_congr_left fun i hi =>
      List.getD_append _ _ _ _ (hvalid i hi)
  · simp [List.getD_append_right s.elems _ emptyEl s.elems.length (Nat.le_refl _)]

/-- Folding `addMessage` over messages none of which match a pending entry
appends their sentinel-filtered fresh renderings, and preserves the
registry, the username and the validity of the displayed element ids. -/
theorem foldl_addMessage_spec (ms : List Msg) :
    ∀ s : ClientState, (∀ i ∈ s.children, i < s.elems.length) →
      (∀ m ∈ ms, pendingLookup s m.client_id = none) →
      displayed (List.foldl (fun st m => addMessage m st) s ms)
          = displayed s ++ histRenderSpec s.username ms ∧
      (List.foldl (fun st m => addMessage m st) s ms).pendingByClientId
          = s.pendingByClientId ∧
      (List.foldl (fun st m => addMessage m st) s ms).username = s.username ∧
      (∀ i ∈ (List.foldl (fun st m => addMessage m st) s ms).children,
          i < (List.foldl (fun st m => addMessage m st) s ms).elems.length) := by
  induction ms with
  | nil =>
    intro s hv _
    exact ⟨by simp [histRenderSpec], rfl, rfl, hv⟩
  | cons m rest ih =>
    intro s hv hnp
    rw [List.foldl_cons]
    by_cases hsys : m.username = "system"
    · have hstep : addMessage m s = s := by simp [addMessage, hsys]
      have hfilter : histRenderSpec s.username (m :: rest)
          = histRenderSpec s.username rest := by
        simp [histRenderSpec, List.filter_cons, hsys]
      rw [hstep]
      obtain ⟨h1, h2, h3, h4⟩ := ih s hv fun m' hm' => hnp m' (List.mem_cons_of_mem _ hm')
      exact ⟨by rw [h1, hfilter], h2, h3, h4⟩
    · have hlook := hnp m (List.mem_cons_self _ _)
      have hstep : addMessage m s = appendFresh m s := by
        simp [addMessage, hsys, hlook]
      have hv1 : ∀ i ∈ (appendFresh m s).children, i < (appendFresh m s).elems.length := by
        intro i hi
      -- children gained the id of the freshly appended element
        simp only [appendFresh, List.mem_append, List.mem_singleton] at hi
        simp only [appendFresh, List.length_append, List.length_singleton]
        cases hi with
        | inl h => exact Nat.lt_succ_of_lt (hv i h)
        | inr h => exact h ▸ Nat.lt_succ_self _
      have hnp1 : ∀ m' ∈ rest, pendingLookup (appendFresh m s) m'.client_id = none := by
        intro m' hm'
        have := hnp m' (List.mem_cons_of_mem _ hm')
        simpa [pendingLookup, appendFresh] using this
      obtain ⟨h1, h2, h3, h4⟩ := ih (appendFresh m s) hv1 hnp1
      rw [hstep]
      refine ⟨?_, h2, h3, h4⟩
      have hfilter : histRenderSpec s.username (m :: rest)
          = renderMsg s.username m :: histRenderSpec s.username rest := by
        simp [histRenderSpec, List.filter_cons, hsys]
      have huser : (appendFresh m s).username = s.username := rfl
      rw [h1, huser, displayed_appendFresh m s hv, hfilter]
      simp

/-- The `history` branch renders the sentinel-filtered payload when no
entry matches a pending client id; the registry and username survive. -/
theorem handleHistory_spec (ms : List Msg) (s : ClientState)
    (hnp : ∀ m ∈ ms, pendingLookup s m.client_id = none) :
    displayed (handleHistory ms s) = histRenderSpec s.username ms ∧
    (handleHistory ms s).pendingByClientId = s.pendingByClientId ∧
    (handleHistory ms s).username = s.username := by
  have hnp0 : ∀ m ∈ ms,
      pendingLookup { s with children := ([] : List Nat) } m.client_id = none := by
    intro m hm
    simpa [pendingLookup] using hnp m hm
  have h := foldl_addMessage_spec ms { s with children := ([] : List Nat) }
    (by intro i hi; simp at hi) hnp0
  refine ⟨?_, h.2.1, h.2.2.1⟩
  have hd0 : displayed { s with children := ([] : List Nat) } = [] := rfl
  have := h.1
  rw [hd0] at this
  simpa using this

/-! Reconnect-timer lemmas. -/

theorem scheduleReconnect_ws (s : ClientState) : (scheduleReconnect s).ws = s.ws := by
  unfold scheduleReconnect; split <;> rfl

theorem scheduleReconnect_timerTrue (s : ClientState) :
    (scheduleReconnect s).reconnectTimer = true := by
  unfold scheduleReconnect
  split
  · assumption
  · rfl

theorem scheduleReconnect_timers (s : ClientState) (h : timerInv s) :
    (scheduleReconnect s).pendingTimers = [800] := by
  unfold timerInv at h
  unfold scheduleReconnect
  split
  · next hc => rw [hc] at h; simpa using h
  · next hc =>
    have hc' : s.reconnectTimer = false := by
      cases hb : s.reconnectTimer
      · rfl
      · exact absurd hb hc
    rw [hc'] at h
    simp [h]

/-! The claims. -/

/-- Claim C1, amended per the counterexample `flush_drop_cex`: for every
sequence of enqueue operations followed eventually by a connection open,
flushing the outbound queue sends the queued payloads in exact FIFO order
with none dropped and none duplicated; if a send fails mid-flush, the item
being sent has already been shifted off the queue and is dropped, while
the items after it stay queued for the next successful connection open;
and the queue is only drained when the connection state is Open. -/
theorem flush_fifo_amended (oracle : Nat → Bool) (s : ClientState) (ps : List Payload)
    (hq : s.sendQueue = []) (hopen : isOpen s = true) :
    ((∀ i, i < ps.length → oracle (s.sendCount + i) = true) →
      (flushQueue oracle (List.foldl (fun st p => enqueue p st) s ps)).sentFrames
          = s.sentFrames ++ ps ∧
      (flushQueue oracle (List.foldl (fun st p => enqueue p st) s ps)).sendQueue = []) ∧
    (∀ k, k < ps.length → (∀ i, i < k → oracle (s.sendCount + i) = true) →
      oracle (s.sendCount + k) = false →
      (flushQueue oracle (List.foldl (fun st p => enqueue p st) s ps)).sentFrames
          = s.sentFrames ++ ps.take k ∧
      (flushQueue oracle (List.foldl (fun st p => enqueue p st) s ps)).sendQueue
          = ps.drop (k + 1)) ∧
    (∀ s2 : ClientState, isOpen s2 = false → flushQueue oracle s2 = s2) := by
  have hfold : List.foldl (fun st p => enqueue p st) s ps = { s with sendQueue := ps } := by
    rw [foldl_enqueue, hq]
    simp
  have hopen1 : isOpen ({ s with sendQueue := ps } : ClientState) = true := hopen
  have hflush : flushQueue oracle ({ s with sendQueue := ps } : ClientState)
      = flushLoop oracle { s with sendQueue := ps } ps := by
    simp [flushQueue, hopen1]
  refine ⟨?_, ?_, ?_⟩
  · intro hok
    rw [hfold, hflush]
    exact flushLoop_ok oracle ps _ hok
  · intro k hk hpre hfail
    rw [hfold, hflush]
    exact flushLoop_fail oracle k ps _ hk hpre hfail
  · intro s2 h2
    simp [flushQueue, h2]

/-- Witness for `flush_fifo_amended`: from the open state `sInit`,
enqueueing `pA` then `pB` and flushing with all sends succeeding puts
exactly `[pA, pB]` on the wire and empties the queue. -/
theorem flush_fifo_amended_witness :
    (flushQueue (fun _ => true)
        (List.foldl (fun st p => enqueue p st) sInit [pA, pB])).sentFrames
      = sInit.sentFrames ++ [pA, pB] ∧
    (flushQueue (fun _ => true)
        (List.foldl (fun st p => enqueue p st) sInit [pA, pB])).sendQueue = [] :=
  (flush_fifo_amended (fun _ => true) sInit [pA, pB] rfl rfl).1 (fun _ _ => rfl)

/-- Counterexample to claim C1 as stated: with the connection open and
queue `[pA, pB]`, a failure of the first send leaves only `[pB]` queued —
`pA` was shifted off before the send, is not re-queued and is not on the
wire, contradicting "the remaining items (including the one whose send
failed) stay queued". -/
theorem flush_drop_cex :
    (flushQueue (fun _ => false) { sInit with sendQueue := [pA, pB] }).sendQueue = [pB] ∧
    (flushQueue (fun _ => false) { sInit with sendQueue := [pA, pB] }).sentFrames = [] ∧
    pA ∉ (flushQueue (fun _ => false) { sInit with sendQueue := [pA, pB] }).sendQueue ∧
    (flushQueue (fun _ => false) { sInit with sendQueue := [pA, pB] }).sendQueue
      ≠ [pA, pB] := by
  refine ⟨rfl, rfl, by decide, by decide⟩

/-- Claim C2, amended per the counterexample `history_pending_match_cex`:
for every inbound history frame the dispatcher clears the rendered
messages — the pending registry is not cleared — and renders each message
of the sequence in order through the same sentinel-filtered path as a
normal confirmation, pending-id matching included; provided no message of
the frame carries a client_id present in the pending registry, the display
afterwards shows exactly the sentinel-filtered history sequence, replacing
any prior content, and the registry is untouched. -/
theorem history_replaces_display (s : ClientState) (ms : List Msg)
    (hnp : ∀ m ∈ ms, pendingLookup s m.client_id = none) :
    displayed (handleHistory ms s) = histRenderSpec s.username ms ∧
    (handleHistory ms s).pendingByClientId = s.pendingByClientId :=
  ⟨(handleHistory_spec ms s hnp).1, (handleHistory_spec ms s hnp).2.1⟩

/-- Witness for `history_replaces_display`: a two-message history (one
ordinary message, one sentinel) delivered to a session holding an
unrelated pending entry. -/
theorem history_replaces_display_witness :
    displayed (handleHistory [mAlice, mSys] { sPend with pendingByClientId := [("xyz", 0)] })
        = histRenderSpec ({ sPend with pendingByClientId := [("xyz", 0)] } : ClientState).username
            [mAlice, mSys] ∧
    (handleHistory [mAlice, mSys]
        { sPend with pendingByClientId := [("xyz", 0)] }).pendingByClientId
      = ({ sPend with pendingByClientId := [("xyz", 0)] } : ClientState).pendingByClientId :=
  history_replaces_display { sPend with pendingByClientId := [("xyz", 0)] }
    [mAlice, mSys] (by decide)

/-- Counterexample to claim C2 as stated: a history frame whose single
message carries a client_id that is in the pending registry is captured by
the pending-id match inside `addMessage`: the element it updates was just
detached by the display clear, so the display ends empty instead of
showing the history sequence, and the registry entry is consumed instead
of the display state being reset without matching. -/
theorem history_pending_match_cex :
    displayed (handleHistory [mBob] sPend) = [] ∧
    histRenderSpec sPend.username [mBob] ≠ [] ∧
    displayed (handleHistory [mBob] sPend) ≠ histRenderSpec sPend.username [mBob] ∧
    (handleHistory [mBob] sPend).pendingByClientId = [] := by
  refine ⟨rfl, by decide, by decide, rfl⟩

/-- Claim C3: for every client_id registered in the pending registry, a
subsequent inbound confirmation carrying that client_id removes exactly
one registry entry (other keys unaffected) and updates exactly one
existing placeholder in place without creating a new display entry; a
second confirmation with the same client_id is treated as an ordinary
unmatched new message. -/
theorem resolve_consumes_once (s : ClientState) (m : Msg) (elId : Nat)
    (hu : m.username ≠ "system")
    (hl : pendingLookup s m.client_id = some elId)
    (hnodup : (s.pendingByClientId.map Prod.fst).Nodup) :
    (addMessage m s).pendingByClientId = eraseKey m.client_id s.pendingByClientId ∧
    (addMessage m s).pendingByClientId.length + 1 = s.pendingByClientId.length ∧
    (addMessage m s).pendingByClientId.lookup m.client_id = none ∧
    (∀ k, k ≠ m.client_id →
      (addMessage m s).pendingByClientId.lookup k = s.pendingByClientId.lookup k) ∧
    (addMessage m s).children = s.children ∧
    (addMessage m s).elems = listModify (updateConfirmed m) elId s.elems ∧
    (addMessage m s).elems.length = s.elems.length ∧
    addMessage m (addMessage m s) = appendFresh m (addMessage m s) := by
  have hc : m.client_id ≠ "" := by
    intro h0
    rw [pendingLookup, if_pos h0] at hl
    exact Option.noConfusion hl
  have hlook : s.pendingByClientId.lookup m.client_id = some elId := by
    rw [pendingLookup, if_neg hc] at hl
    exact hl
  have hsome : (s.pendingByClientId.lookup m.client_id).isSome := by rw [hlook]; rfl
  have hstep : addMessage m s = resolvePending m elId s := by
    simp [addMessage, hu, hl]
  rw [hstep]
  have hl2 : pendingLookup (resolvePending m elId s) m.client_id = none := by
    rw [pendingLookup, if_neg hc]
    exact lookup_eraseKey_self _ _ hnodup
  refine ⟨rfl, eraseKey_length _ _ hsome, lookup_eraseKey_self _ _ hnodup,
    fun k hk => lookup_eraseKey_ne _ _ _ hk, rfl, rfl, listModify_length _ _ _, ?_⟩
  simp [addMessage, hu, hl2]

/-- Witness for `resolve_consumes_once`: the draft `"hi"` registered as
`"abc"` by `sendMessageCore`, confirmed once by its server echo `mBob`. -/
theorem resolve_consumes_once_witness :
    (addMessage mBob s1W).pendingByClientId.length + 1 = s1W.pendingByClientId.length ∧
    (addMessage mBob s1W).pendingByClientId.lookup mBob.client_id = none ∧
    (addMessage mBob s1W).pendingByClientId.lookup "other"
        = s1W.pendingByClientId.lookup "other" ∧
    (addMessage mBob s1W).children = s1W.children ∧
    addMessage mBob (addMessage mBob s1W) = appendFresh mBob (addMessage mBob s1W) := by
  obtain ⟨h1, h2, h3, h4, h5, h6, h7, h8⟩ :=
    resolve_consumes_once s1W mBob 0 (by decide) (by decide) (by decide)
  exact ⟨h2, h3, h4 "other" (by decide), h5, h8⟩

/-- Claim C4: calling `connectWS` while the connection state is Connecting
(readyState 0) or Open (readyState 1) returns immediately without side
effects, so no duplicate connection attempt is ever started. -/
theorem connect_idempotent (s : ClientState) (w : WS) (hw : s.ws = some w)
    (hr : w.readyState = 0 ∨ w.readyState = 1) : connectWS s = s := by
  unfold connectWS
  rw [hw]
  simp [hr]

/-- Witness for `connect_idempotent`: `sInit` holds an open socket. -/
theorem connect_idempotent_witness : connectWS sInit = sInit :=
  connect_idempotent sInit { readyState := 1 } rfl (Or.inr rfl)

/-- Claim C5: on every connection close exactly one reconnect timer with
the fixed 800 ms delay is pending afterwards, and a second close event
arriving before the timer fires does not schedule a second timer. -/
theorem close_single_timer (s : ClientState) (h : timerInv s) :
    (handleClose s).pendingTimers = [800] ∧
    (handleClose s).reconnectTimer = true ∧
    (handleClose (handleClose s)).pendingTimers = [800] := by
  have h1 : (handleClose s).pendingTimers = [800] := scheduleReconnect_timers _ h
  have h2 : (handleClose s).reconnectTimer = true := scheduleReconnect_timerTrue _
  have h3 : timerInv (handleClose s) := by
    unfold timerInv
    rw [h1, h2]
    rfl
  exact ⟨h1, h2, scheduleReconnect_timers _ h3⟩

/-- Witness for `close_single_timer`: two consecutive closes from `sInit`,
which starts with no pending timer. -/
theorem close_single_timer_witness :
    (handleClose sInit).pendingTimers = [800] ∧
    (handleClose sInit).reconnectTimer = true ∧
    (handleClose (handleClose sInit)).pendingTimers = [800] :=
  close_single_timer sInit rfl

/-- Claim C6, amended per the counterexample `history_not_idempotent_cex`:
history replay is idempotent in display outcome provided no message of the
payload carries a client_id currently in the pending registry — delivering
the same history frame twice in succession then yields the same rendered
message list after each delivery, with no duplication, because each replay
clears rendered state first. -/
theorem history_idempotent (s : ClientState) (ms : List Msg)
    (hnp : ∀ m ∈ ms, pendingLookup s m.client_id = none) :
    displayed (handleHistory ms (handleHistory ms s))
      = displayed (handleHistory ms s) := by
  obtain ⟨h1, h2, h3⟩ := handleHistory_spec ms s hnp
  have hnp2 : ∀ m ∈ ms, pendingLookup (handleHistory ms s) m.client_id = none := by
    intro m hm
    have := hnp m hm
    unfold pendingLookup at this ⊢
    rw [h2]
    exact this
  obtain ⟨h1', _, _⟩ := handleHistory_spec ms (handleHistory ms s) hnp2
  rw [h1', h3, h1]

/-- Witness for `history_idempotent`: replaying the same two-message
history twice into a session whose pending entry matches no history
message. -/
theorem history_idempotent_witness :
    displayed (handleHistory [mAlice, mSys]
        (handleHistory [mAlice, mSys] { sPend with pendingByClientId := [("xyz", 0)] }))
      = displayed (handleHistory [mAlice, mSys]
          { sPend with pendingByClientId := [("xyz", 0)] }) :=
  history_idempotent { sPend with pendingByClientId := [("xyz", 0)] }
    [mAlice, mSys] (by decide)

/-- Counterexample to claim C6 as stated: replaying `[mBob]` into `sPend`
(whose registry holds `mBob`'s client_id) shows an empty display after the
first delivery but `[mBob]`'s rendering after the second — the first
replay consumed the registry entry, so the deliveries disagree. -/
theorem history_not_idempotent_cex :
    displayed (handleHistory [mBob] sPend) = [] ∧
    displayed (handleHistory [mBob] (handleHistory [mBob] sPend))
        = [renderMsg "bob" mBob] ∧
    displayed (handleHistory [mBob] (handleHistory [mBob] sPend))
        ≠ displayed (handleHistory [mBob] sPend) := by
  refine ⟨rfl, rfl, by decide⟩

/-- Claim C7: every message whose username equals the sentinel `"system"`
is suppressed entirely — `addMessage` returns the state unchanged, so it
is never rendered and never consumes a pending-registry entry, regardless
of its client_id. -/
theorem system_suppressed (m : Msg) (s : ClientState) (h : m.username = "system") :
    addMessage m s = s := by
  simp [addMessage, h]

/-- Witness for `system_suppressed`: a sentinel message carrying a
client_id that is registered in `sPend` still changes nothing. -/
theorem system_suppressed_witness : addMessage mSys sPend = sPend :=
  system_suppressed mSys sPend rfl

/-- Claim C8, amended per the counterexample `unrecognized_not_logged_cex`:
for every malformed inbound frame the dispatcher drops the frame and never
crashes (it is a total function), leaving display, queue, registry and
connection unchanged; a JSON parse failure is logged, while a frame with
an unrecognized type discriminator falls through both dispatch branches
silently, producing no log line. -/
theorem malformed_frame_dropped (s : ClientState) (ty : String) :
    onMessage RawFrame.malformed s = { s with log := s.log ++ ["[WS] bad JSON"] } ∧
    onMessage (RawFrame.ok (Frame.other ty)) s = s ∧
    displayed (onMessage RawFrame.malformed s) = displayed s ∧
    (onMessage RawFrame.malformed s).sendQueue = s.sendQueue ∧
    (onMessage RawFrame.malformed s).pendingByClientId = s.pendingByClientId ∧
    (onMessage RawFrame.malformed s).ws = s.ws :=
  ⟨rfl, rfl, rfl, rfl, rfl, rfl⟩

/-- Counterexample to claim C8 as stated: a well-parsed frame with the
unrecognized type `"ping"` matches neither dispatch branch, so it is
dropped without any log line — `sInit`'s log starts empty and stays
empty, contradicting "drops the frame and logs it". -/
theorem unrecognized_not_logged_cex :
    onMessage (RawFrame.ok (Frame.other "ping")) sInit = sInit ∧
    (onMessage (RawFrame.ok (Frame.other "ping")) sInit).log = [] ∧
    sInit.log = [] :=
  ⟨rfl, rfl, rfl⟩

/-- Claim C9: connection errors are non-fatal — the error handler only
logs (it is a total function, so no exception reaches the caller) and
changes no other state, and the close event that follows an error leaves
the connection Disconnected with exactly one 800 ms reconnect pending. -/
theorem error_nonfatal (s : ClientState) (h : timerInv s) :
    handleError s = { s with log := s.log ++ ["[WS] error"] } ∧
    isDisconnected (handleClose (handleError s)) = true ∧
    (handleClose (handleError s)).reconnectTimer = true ∧
    (handleClose (handleError s)).pendingTimers = [800] := by
  refine ⟨rfl, ?_, scheduleReconnect_timerTrue _, scheduleReconnect_timers _ h⟩
  have hws : (handleClose (handleError s)).ws
      = s.ws.map (fun w => { w with readyState := 3 }) := by
    unfold handleClose
    rw [scheduleReconnect_ws]
    rfl
  unfold isDisconnected
  rw [hws]
  cases s.ws <;> rfl

/-- Witness for `error_nonfatal`: an error then a close on `sInit`. -/
theorem error_nonfatal_witness :
    handleError sInit = { sInit with log := sInit.log ++ ["[WS] error"] } ∧
    isDisconnected (handleClose (handleError sInit)) = true ∧
    (handleClose (handleError sInit)).reconnectTimer = true ∧
    (handleClose (handleError sInit)).pendingTimers = [800] :=
  error_nonfatal sInit rfl

/-- Claim C10: when an inbound confirmation matches a pending client_id,
only the placeholder's meta line and pending status change — its body text
and image keep the locally-entered values — and the `text` and `image_url`
fields of the server echo are ignored: any echo differing only in those
fields produces the identical state. -/
theorem confirm_ignores_echo_body (s : ClientState) (m : Msg) (elId : Nat)
    (hu : m.username ≠ "system")
    (hl : pendingLookup s m.client_id = some elId)
    (hlt : elId < s.elems.length) :
    (addMessage m s).elems.getD elId emptyEl
        = { s.elems.getD elId emptyEl with meta := metaText m, pending := false } ∧
    ((addMessage m s).elems.getD elId emptyEl).body
        = (s.elems.getD elId emptyEl).body ∧
    ((addMessage m s).elems.getD elId emptyEl).image
        = (s.elems.getD elId emptyEl).image ∧
    (addMessage m s).children = s.children ∧
    (∀ t2 i2 : String,
      addMessage { m with text := t2, image_url := i2 } s = addMessage m s) := by
  have hstep : addMessage m s = resolvePending m elId s := by
    simp [addMessage, hu, hl]
  have hget : (resolvePending m elId s).elems.getD elId emptyEl
      = updateConfirmed m (s.elems.getD elId emptyEl) :=
    getD_listModify_self _ _ _ hlt _
  refine ⟨?_, ?_, ?_, ?_, ?_⟩
  · rw [hstep, hget]; rfl
  · rw [hstep, hget]; rfl
  · rw [hstep, hget]; rfl
  · rw [hstep]; rfl
  · intro t2 i2
    have h1 : addMessage { m with text := t2, image_url := i2 } s
        = resolvePending { m with text := t2, image_url := i2 } elId s := by
      simp [addMessage, hu, hl]
    rw [h1, hstep]
    rfl

/-- Witness for `confirm_ignores_echo_body`: the echo `mBob` confirms the
placeholder of `s1W`; an echo with different text and image produces the
identical state. -/
theorem confirm_ignores_echo_body_witness :
    (addMessage mBob s1W).elems.getD 0 emptyEl
        = { s1W.elems.getD 0 emptyEl with meta := metaText mBob, pending := false } ∧
    ((addMessage mBob s1W).elems.getD 0 emptyEl).body
        = (s1W.elems.getD 0 emptyEl).body ∧
    ((addMessage mBob s1W).elems.getD 0 emptyEl).image
        = (s1W.elems.getD 0 emptyEl).image ∧
    addMessage { mBob with text := "OTHER", image_url := "http" } s1W
        = addMessage mBob s1W := by
  obtain ⟨h1, h2, h3, h4, h5⟩ :=
    confirm_ignores_echo_body s1W mBob 0 (by decide) (by decide) (by decide)
  exact ⟨h1, h2, h3, h5 "OTHER" "http"⟩

end ChatClient
